import Mathlib

/-!
Verification development for the `appcard` personal-ledger application
(`src/app.py`).  Money amounts are embedded as exact rationals (the store
keeps them as `NUMERIC(14,2)`), dates as integers (only their order matters),
and the relational state as explicit lists of rows.  Python's `round(x, 2)`
is embedded as round-half-to-even on the exact value, and each database
commit of the source is one state-transformer in the embedding.  Ids that the
store generates (`BIGSERIAL`) are passed as parameters, with freshness stated
as a hypothesis where a theorem needs it.
-/

set_option maxHeartbeats 1000000

namespace Appcard

/-! ## Definitions -/

/-! ### Rounding to two decimal places (Python `round(x, 2)`) -/

/-- Round-half-to-even of a rational to an integer, as Python's `round`
performs on exact values. -/
def rhe (q : ℚ) : ℤ :=
  if q - ⌊q⌋ = 1 / 2 then (if ⌊q⌋ % 2 = 0 then ⌊q⌋ else ⌊q⌋ + 1) else round q

/-- `round(x, 2)` of the source: round to the nearest multiple of `1 / 100`. -/
def round2 (q : ℚ) : ℚ := (rhe (100 * q) : ℚ) / 100

/-! ### Installment allocator (`_calc_valores_parcelas`, src/app.py:782-790) -/

/-- Embedding of `_calc_valores_parcelas(v_in, n, modo)`: for `n <= 1` a single
rounded value; in `Total` mode `n - 1` copies of `round(v_in / n, 2)` followed
by a last installment absorbing the residual `v_in - sum(vals)`; otherwise
(`Parcela` mode) `n` copies of `round(v_in, 2)`. -/
def calc_valores_parcelas (v_in : ℚ) (n : ℕ) (modo : String) : List ℚ :=
  if n ≤ 1 then [round2 v_in]
  else if modo = "Total" then
    List.replicate (n - 1) (round2 (v_in / n)) ++
      [round2 (round2 (v_in / n) + (v_in - n * round2 (v_in / n)))]
  else
    List.replicate n (round2 v_in)

/-! ### Money codec (`br_money`, src/app.py:94-95, and `parse_brl`,
src/app.py:97-114).  Strings are processed as their character lists;
`br_money` embeds Python's `f"{v:,.2f}"` followed by the separator swap, and
`parse_brl` embeds the strip / `replace("R$","")` / character-class filter /
separator branch / `float()` pipeline, with `float()` modelled on the
post-filter alphabet (digits, dot, minus). -/

/-- The decimal digit character for `d < 10`. -/
def digitChar (d : ℕ) : Char := Char.ofNat (48 + d)

/-- Numeric value of a digit character. -/
def charVal (c : Char) : ℕ := c.toNat - 48

/-- Decimal digits of `n`, most significant first, with explicit fuel (any
fuel above `n` is enough, because `n / 10` decreases strictly). -/
def natDigitsAux : ℕ → ℕ → List Char
  | 0, _ => []
  | fuel + 1, n =>
    if n < 10 then [digitChar n]
    else natDigitsAux fuel (n / 10) ++ [digitChar (n % 10)]

/-- Decimal digits of `n`, most significant first (`"0"` for zero). -/
def natDigits (n : ℕ) : List Char := natDigitsAux (n + 1) n

/-- Insert `'.'` after every three characters counted from the front (used on
the reversed digit list, so from the back of the number). -/
def group3 : List Char → List Char
  | a :: b :: c :: d :: rest => a :: b :: c :: '.' :: group3 (d :: rest)
  | l => l

/-- Thousands grouping with `'.'` separators, as the swapped rendering of
`f"{v:,.2f}"` produces. -/
def groupThousands (ds : List Char) : List Char := (group3 ds.reverse).reverse

/-- The two fraction digits. -/
def twoDigits (k : ℕ) : List Char := [digitChar (k / 10), digitChar (k % 10)]

/-- Character list of `br_money v`: sign, grouped integer digits, `','`, two
fraction digits — `f"{float(v):,.2f}"` (which rounds half-to-even to two
decimals) with `','`/`'.'` swapped. -/
def brMoneyChars (v : ℚ) : List Char :=
  (if rhe (100 * v) < 0 then ['-'] else []) ++
    groupThousands (natDigits ((rhe (100 * v)).natAbs / 100)) ++ [','] ++
    twoDigits ((rhe (100 * v)).natAbs % 100)

/-- Embedding of `br_money(v)`. -/
def br_money (v : ℚ) : String := String.mk (brMoneyChars v)

/-- The whitespace characters `str.strip()` removes (ASCII subset). -/
def isPySpace (c : Char) : Bool :=
  c == ' ' || c == '\t' || c == '\n' || c == '\r' || c == '\x0b' || c == '\x0c'

/-- `str.strip()`. -/
def pyStrip (cs : List Char) : List Char :=
  ((cs.dropWhile isPySpace).reverse.dropWhile isPySpace).reverse

/-- `str.replace("R$", "")`: drop every (non-overlapping, left-to-right)
occurrence of `R$`. -/
def removeRS : List Char → List Char
  | [] => []
  | a :: rest =>
    match rest with
    | [] => [a]
    | b :: rest2 =>
      if a = 'R' ∧ b = '$' then removeRS rest2
      else a :: removeRS (b :: rest2)

/-- The character class kept by `re.sub(r"[^\d,.\-]", "", t)`. -/
def charAllowed (c : Char) : Bool :=
  c.isDigit || c == ',' || c == '.' || c == '-'

/-- `int` value of a digit list, most significant first. -/
def parseNat (cs : List Char) : ℕ :=
  cs.foldl (fun a c => 10 * a + charVal c) 0

/-- A leading minus sign (consumed by `float()` before the digits). -/
def pyNeg : List Char → Bool
  | c :: _ => c == '-'
  | [] => false

/-- The body of `float()` after the optional leading minus was consumed:
digits with at most one dot and at least one digit; anything else (a stray
minus, two dots, no digit at all) raises, i.e. yields `none`. -/
def pyFloatAux (rest : List Char) (neg : Bool) : Option ℚ :=
  if rest.any (fun c => c == '-') then none
  else if 2 ≤ (rest.filter (fun c => c == '.')).length then none
  else if (rest.takeWhile (fun c => !(c == '.'))).all Char.isDigit &&
      ((rest.dropWhile (fun c => !(c == '.'))).drop 1).all Char.isDigit &&
      !((rest.takeWhile (fun c => !(c == '.'))).isEmpty &&
        ((rest.dropWhile (fun c => !(c == '.'))).drop 1).isEmpty) then
    some ((if neg then -1 else 1) *
      ((parseNat (rest.takeWhile (fun c => !(c == '.'))) : ℚ) +
        (parseNat ((rest.dropWhile (fun c => !(c == '.'))).drop 1) : ℚ) /
          (10 : ℚ) ^ ((rest.dropWhile (fun c => !(c == '.'))).drop 1).length))
  else none

/-- Python's `float()` on the post-filter alphabet (digits, dot, minus). -/
def pyFloat? (cs : List Char) : Option ℚ :=
  pyFloatAux (if pyNeg cs then cs.tail else cs) (pyNeg cs)

/-- The separator branch of `parse_brl`: with both separators present, dots
are thousands marks and the comma is the decimal mark; with only a comma,
the comma is the decimal mark; otherwise the text is left as is. -/
def brlBranch (t2 : List Char) : List Char :=
  if t2.any (fun c => c == ',') && t2.any (fun c => c == '.') then
    (t2.filter (fun c => !(c == '.'))).map (fun c => if c == ',' then '.' else c)
  else if t2.any (fun c => c == ',') then
    t2.map (fun c => if c == ',' then '.' else c)
  else t2

/-- The normalisation pipeline of `parse_brl` up to the `float()` call:
strip, drop `R$`, strip, keep only digits/comma/dot/minus, then the
separator branch. -/
def brlNormalize (s : String) : List Char :=
  brlBranch ((pyStrip (removeRS (pyStrip s.toList))).filter charAllowed)

/-- Embedding of `parse_brl(s)` on string input: empty (after stripping)
yields `0.0`; otherwise the normalised text goes through `float()`, and a
parse failure is swallowed into `0.0`. -/
def parse_brl (s : String) : ℚ :=
  if (pyStrip s.toList).isEmpty then 0
  else (pyFloat? (brlNormalize s)).getD 0

/-! ### Relational data model (schema of `init_db`, src/app.py:132-198) -/

/-- Row of `contas`: account id, unique name, kind (`CONTA` or `CARTAO`),
active flag, opening balance. -/
structure Conta where
  id : ℕ
  nome : String
  tipo : String
  ativo : Bool
  saldo_inicial : ℚ
  deriving DecidableEq

/-- Row of `categorias`. -/
structure Categoria where
  id : ℕ
  nome : String
  ativo : Bool
  deriving DecidableEq

/-- Row of `faturas` (card statements).  Dates are embedded as integers. -/
structure Fatura where
  id : ℕ
  conta_id : ℕ
  competencia : ℤ
  dt_inicio : ℤ
  dt_fim : ℤ
  dt_fechamento : ℤ
  dt_vencimento : ℤ
  status : String
  deriving DecidableEq

/-- Row of `lancamentos` (transactions). -/
structure Lancamento where
  id : ℕ
  tipo : String
  descricao : String
  valor : ℚ
  dt_competencia : ℤ
  dt_liquidacao : Option ℤ
  conta_id : ℕ
  fatura_id : Option ℕ
  categoria_id : Option ℕ
  forma_pagamento : Option String
  status : Option String
  prestacao : Option String
  deriving DecidableEq

/-- Row of `pagamentos_fatura` (statement settlements). -/
structure PagamentoFatura where
  id : ℕ
  fatura_id : ℕ
  lancamento_saida_id : ℕ
  dt_pagamento : ℤ
  valor : ℚ
  deriving DecidableEq

/-- The relational store. -/
structure DB where
  contas : List Conta
  categorias : List Categoria
  faturas : List Fatura
  lancamentos : List Lancamento
  pagamentos_fatura : List PagamentoFatura
  deriving DecidableEq

/-! ### Account balances (`saldo_conta_real`, `previsao_*`, src/app.py:302-357) -/

/-- ASCII lower-casing of a character (the case folding `ILIKE` performs on
the status words compared by the queries). -/
def lowerChar (c : Char) : Char :=
  if 65 ≤ c.toNat ∧ c.toNat ≤ 90 then Char.ofNat (c.toNat + 32) else c

/-- ASCII lower-casing of a string; `s ILIKE 'w'` with a wildcard-free
lower-case pattern `w` is `lowerStr s = w`. -/
def lowerStr (s : String) : String := String.mk (s.toList.map lowerChar)

/-- `COALESCE(l.status, 'Pendente')` of the balance queries. -/
def statusEff (l : Lancamento) : String := l.status.getD "Pendente"

/-- Embedding of `saldo_conta_real(conta_nome)`: opening balance plus settled
incomes minus settled expenses, where an income is settled when its effective
status is `'recebido'` case-insensitively or its settlement date is set, and
an expense when its effective status is `'pago'` or its settlement date is
set.  An unknown account name yields `0.0` (the query returns no row). -/
def saldo_conta_real (db : DB) (conta_nome : String) : ℚ :=
  match db.contas.find? (fun c => c.nome == conta_nome) with
  | none => 0
  | some c =>
    c.saldo_inicial
    + (db.lancamentos.map (fun l =>
        if l.conta_id = c.id ∧ l.tipo = "RECEITA" ∧
            (lowerStr (statusEff l) = "recebido" ∨ l.dt_liquidacao ≠ none)
        then l.valor else 0)).sum
    - (db.lancamentos.map (fun l =>
        if l.conta_id = c.id ∧ l.tipo = "DESPESA" ∧
            (lowerStr (statusEff l) = "pago" ∨ l.dt_liquidacao ≠ none)
        then l.valor else 0)).sum

/-- Embedding of `previsao_receber_conta`: sum of the account's pending
incomes. -/
def previsao_receber_conta (db : DB) (conta_nome : String) : ℚ :=
  match db.contas.find? (fun c => c.nome == conta_nome) with
  | none => 0
  | some c =>
    (db.lancamentos.map (fun l =>
      if l.conta_id = c.id ∧ l.tipo = "RECEITA" ∧
          lowerStr (statusEff l) = "pendente"
      then l.valor else 0)).sum

/-- Embedding of `previsao_pagar_conta`: sum of the account's pending
expenses. -/
def previsao_pagar_conta (db : DB) (conta_nome : String) : ℚ :=
  match db.contas.find? (fun c => c.nome == conta_nome) with
  | none => 0
  | some c =>
    (db.lancamentos.map (fun l =>
      if l.conta_id = c.id ∧ l.tipo = "DESPESA" ∧
          lowerStr (statusEff l) = "pendente"
      then l.valor else 0)).sum

/-! ### Statement lookup (`suggest_fatura_for_date`, src/app.py:363-372) -/

/-- `ORDER BY dt_fim DESC LIMIT 1`: a row with the latest `dt_fim`, `none` on
an empty result set. -/
def bestFatura : List Fatura → Option Fatura
  | [] => none
  | f :: fs =>
    match bestFatura fs with
    | none => some f
    | some g => if g.dt_fim < f.dt_fim then some f else some g

/-- Embedding of `suggest_fatura_for_date(cartao_id, dt)`: the id of the
statement of that card whose inclusive period `[dt_inicio, dt_fim]` contains
`dt`, preferring the latest `dt_fim`. -/
def suggest_fatura_for_date (db : DB) (cartao_id : ℕ) (dt : ℤ) : Option ℕ :=
  (bestFatura (db.faturas.filter (fun f =>
    decide (f.conta_id = cartao_id ∧ f.dt_inicio ≤ dt ∧ dt ≤ f.dt_fim)))).map
    (fun f => f.id)

/-! ### Statement upsert (`f_save` button, src/app.py:683-698) and other
operations' error conditions -/

/-- Error conditions surfaced by the UI guards of the source. -/
inductive OpErr where
  | invalidPeriod
  | notFound
  | alreadyPaid
  | invalidValue
  | emptySelection
  | nonPositiveTotal
  deriving DecidableEq

/-- The `DO UPDATE` arm of the statement upsert: on the conflicting
`(conta_id, competencia)` key, overwrite exactly the four date columns. -/
def f_upd (cartao_id : ℕ) (competencia dt_inicio dt_fim dt_fech dt_venc : ℤ)
    (g : Fatura) : Fatura :=
  if g.conta_id = cartao_id ∧ g.competencia = competencia then
    { g with dt_inicio := dt_inicio, dt_fim := dt_fim,
             dt_fechamento := dt_fech, dt_vencimento := dt_venc }
  else g

/-- Embedding of the `Salvar fatura` handler: reject `dt_inicio > dt_fim`
before any write, otherwise
`INSERT ... ON CONFLICT (conta_id, competencia) DO UPDATE` — a fresh `ABERTA`
row when the key is absent, else an update of the four date columns only. -/
def f_save (db : DB) (cartao_id : ℕ)
    (competencia dt_inicio dt_fim dt_fech dt_venc : ℤ) (new_id : ℕ) :
    Except OpErr DB :=
  if dt_fim < dt_inicio then .error .invalidPeriod
  else
    match db.faturas.find? (fun f =>
        f.conta_id == cartao_id && f.competencia == competencia) with
    | none => .ok { db with faturas := db.faturas ++
        [⟨new_id, cartao_id, competencia, dt_inicio, dt_fim, dt_fech, dt_venc,
          "ABERTA"⟩] }
    | some _ => .ok { db with faturas := db.faturas.map (f_upd cartao_id competencia dt_inicio dt_fim dt_fech dt_venc) }

/-! ### Statement lifecycle (`fc_fechar` / `fc_abrir` / `fc_pagar`,
src/app.py:1327-1404).  The status guard reads the statement's status; an id
that resolves to no row is surfaced as `notFound` (the UI only offers ids of
existing rows). -/

/-- Lookup of a statement row by id. -/
def findFatura (db : DB) (fatura_id : ℕ) : Option Fatura :=
  db.faturas.find? (fun f => f.id == fatura_id)

/-- The status of a statement, if it exists. -/
def statusFatura (db : DB) (fatura_id : ℕ) : Option String :=
  (findFatura db fatura_id).map (fun f => f.status)

/-- `SELECT ... FROM contas WHERE nome=%s AND ativo=TRUE`. -/
def findContaAtiva (db : DB) (nome : String) : Option Conta :=
  db.contas.find? (fun c => c.nome == nome && c.ativo)

/-- `UPDATE faturas SET status=%s WHERE id=%s`. -/
def setFaturaStatus (db : DB) (fatura_id : ℕ) (s : String) : DB :=
  { db with faturas := db.faturas.map (fun f =>
      if f.id = fatura_id then { f with status := s } else f) }

/-- Embedding of the `Marcar como FECHADA` action: refused on a `PAGA`
statement, otherwise sets the status to `FECHADA`. -/
def fc_fechar (db : DB) (fatura_id : ℕ) : Except OpErr DB :=
  match findFatura db fatura_id with
  | none => .error .notFound
  | some f =>
    if f.status = "PAGA" then .error .alreadyPaid
    else .ok (setFaturaStatus db fatura_id "FECHADA")

/-- Embedding of the `Marcar como ABERTA` action: refused on a `PAGA`
statement, otherwise sets the status to `ABERTA`. -/
def fc_abrir (db : DB) (fatura_id : ℕ) : Except OpErr DB :=
  match findFatura db fatura_id with
  | none => .error .notFound
  | some f =>
    if f.status = "PAGA" then .error .alreadyPaid
    else .ok (setFaturaStatus db fatura_id "ABERTA")

/-- Name of the account with the given id (used for the synthesized
settlement description). -/
def contaNome (db : DB) (conta_id : ℕ) : String :=
  ((db.contas.find? (fun c => c.id == conta_id)).map (fun c => c.nome)).getD ""

/-- The settlement expense row inserted by paying a statement: an expense on
the funding account `Cora`, description synthesized from the card name and
billing month, settled on the payment date with status `Pago`, method
`Transferência`, no statement link. -/
def lancSaida (db : DB) (f : Fatura) (cora : Conta) (valor_pg : ℚ)
    (dt_pg : ℤ) (lanc_id : ℕ) : Lancamento :=
  ⟨lanc_id, "DESPESA",
   "Pagamento Fatura - " ++ contaNome db f.conta_id ++ " (" ++
     toString f.competencia ++ ")",
   valor_pg, dt_pg, some dt_pg, cora.id, none,
   (db.categorias.find? (fun k => k.nome == "Pagamento de Fatura")).map
     (fun k => k.id),
   some "Transferência", some "Pago", none⟩

/-- The single database transaction of `fc_pagar` (one connection, one
commit): insert the settlement expense, insert the `pagamentos_fatura` row,
set the statement status to `PAGA`. -/
def payWrites (db : DB) (fatura_id : ℕ) (dt_pg : ℤ) (valor_pg : ℚ)
    (lanc_id pag_id : ℕ) (f : Fatura) (cora : Conta) : DB :=
  setFaturaStatus
    { db with
        lancamentos := db.lancamentos ++
          [lancSaida db f cora valor_pg dt_pg lanc_id],
        pagamentos_fatura := db.pagamentos_fatura ++
          [⟨pag_id, fatura_id, lanc_id, dt_pg, valor_pg⟩] }
    fatura_id "PAGA"

/-- Embedding of the `Pagar fatura` handler: requires the active funding
account `Cora`; refuses a `PAGA` statement and a non-positive paid amount;
otherwise performs the three writes as one transaction. -/
def fc_pagar (db : DB) (fatura_id : ℕ) (dt_pg : ℤ) (valor_pg : ℚ)
    (lanc_id pag_id : ℕ) : Except OpErr DB :=
  match findContaAtiva db "Cora" with
  | none => .error .notFound
  | some cora =>
    match findFatura db fatura_id with
    | none => .error .notFound
    | some f =>
      if f.status = "PAGA" then .error .alreadyPaid
      else if valor_pg ≤ 0 then .error .invalidValue
      else .ok (payWrites db fatura_id dt_pg valor_pg lanc_id pag_id f cora)

/-- The commit-granularity observable states of a pay run: the source wraps
all three writes in one connection with a single `commit`, so only the
initial and (on success) the final state are observable. -/
def fc_pagar_obs (db : DB) (fatura_id : ℕ) (dt_pg : ℤ) (valor_pg : ℚ)
    (lanc_id pag_id : ℕ) : List DB :=
  match fc_pagar db fatura_id dt_pg valor_pg lanc_id pag_id with
  | .ok db2 => [db, db2]
  | .error _ => [db]

/-! ### Collection slips (`bol_gerar`, src/app.py:1241-1267, and
`bol_des_btn`, src/app.py:1280-1287).  `bol_gerar` runs as TWO separate
transactions: `fetch_one` commits the slip `INSERT ... RETURNING id` on its
own connection, then `exec_sql` commits the child re-tagging on another.
`bol_des_btn` likewise issues two `exec_sql` commits. -/

/-- The reference tag `'Boleto:<id>'` written into the children's
`forma_pagamento`. -/
def boletoTag (boleto_id : ℕ) : String := "Boleto:" ++ toString boleto_id

/-- Sum of the selected rows' amounts (`df_pend.loc[mask, "valor"].sum()`). -/
def selTotal (db : DB) (ids : List ℕ) : ℚ :=
  ((db.lancamentos.filter (fun l => decide (l.id ∈ ids))).map
    (fun l => l.valor)).sum

/-- The slip income row grouping inserts (pending, method `Boleto`, amount =
the selected total, due date as booking date, no settlement date, no
statement). -/
def boletoRow (boleto_id : ℕ) (descricao : String) (total : ℚ) (venc : ℤ)
    (conta_id : ℕ) (cat_id : Option ℕ) : Lancamento :=
  ⟨boleto_id, "RECEITA", descricao, total, venc, none, conta_id, none,
   cat_id, some "Boleto", some "Pendente", none⟩

/-- First commit of grouping: insert the slip income row. -/
def bol_gerar_step1 (db : DB) (boleto_id : ℕ) (descricao : String)
    (total : ℚ) (venc : ℤ) (conta_id : ℕ) (cat_id : Option ℕ) : DB :=
  { db with lancamentos := db.lancamentos ++
      [boletoRow boleto_id descricao total venc conta_id cat_id] }

/-- Per-row effect of the child re-tagging
(`UPDATE ... SET status='Agrupada', forma_pagamento=%s WHERE id = ANY(%s)`). -/
def bol_gerar_upd (ids : List ℕ) (boleto_id : ℕ) (l : Lancamento) :
    Lancamento :=
  if l.id ∈ ids then
    { l with status := some "Agrupada",
             forma_pagamento := some (boletoTag boleto_id) }
  else l

/-- Second commit of grouping: re-tag every row whose id was selected. -/
def bol_gerar_step2 (db : DB) (ids : List ℕ) (boleto_id : ℕ) : DB :=
  { db with lancamentos := db.lancamentos.map (bol_gerar_upd ids boleto_id) }

/-- The final state of a grouping run. -/
def bol_gerar_result (db : DB) (boleto_id : ℕ) (ids : List ℕ)
    (descricao : String) (venc : ℤ) (conta_id : ℕ) (cat_id : Option ℕ) : DB :=
  bol_gerar_step2
    (bol_gerar_step1 db boleto_id descricao (selTotal db ids) venc conta_id
      cat_id) ids boleto_id

/-- Embedding of the `Gerar boleto` handler: empty selection and non-positive
total are refused before any write; otherwise the two commits run in
sequence. -/
def bol_gerar (db : DB) (boleto_id : ℕ) (ids : List ℕ) (descricao : String)
    (venc : ℤ) (conta_id : ℕ) (cat_id : Option ℕ) : Except OpErr DB :=
  if ids.isEmpty then .error .emptySelection
  else if selTotal db ids ≤ 0 then .error .nonPositiveTotal
  else .ok (bol_gerar_result db boleto_id ids descricao venc conta_id cat_id)

/-- The commit-granularity observable states of a grouping run: the state
after the slip insert but before the child re-tagging is observable, because
the two writes commit on separate connections. -/
def bol_gerar_obs (db : DB) (boleto_id : ℕ) (ids : List ℕ)
    (descricao : String) (venc : ℤ) (conta_id : ℕ) (cat_id : Option ℕ) :
    List DB :=
  if ids.isEmpty then [db]
  else if selTotal db ids ≤ 0 then [db]
  else
    [db,
     bol_gerar_step1 db boleto_id descricao (selTotal db ids) venc conta_id
       cat_id,
     bol_gerar_result db boleto_id ids descricao venc conta_id cat_id]

/-- Per-row effect of the child reset
(`UPDATE ... SET status='Pendente', forma_pagamento=NULL WHERE
forma_pagamento=%s`). -/
def bol_des_upd (boleto_id : ℕ) (l : Lancamento) : Lancamento :=
  if l.forma_pagamento = some (boletoTag boleto_id) then
    { l with status := some "Pendente", forma_pagamento := none }
  else l

/-- Keep-predicate of the slip delete: a row survives
`DELETE ... WHERE id=%s AND tipo='RECEITA' AND forma_pagamento='Boleto'`
unless all three conditions hold. -/
def bol_des_keep (boleto_id : ℕ) (l : Lancamento) : Bool :=
  !(l.id == boleto_id && l.tipo == "RECEITA" &&
    l.forma_pagamento == some "Boleto")

/-- First commit of ungrouping: reset every row carrying the reference tag
back to pending and clear the tag. -/
def bol_des_step1 (db : DB) (boleto_id : ℕ) : DB :=
  { db with lancamentos := db.lancamentos.map (bol_des_upd boleto_id) }

/-- Second commit of ungrouping: delete the slip row itself. -/
def bol_des_step2 (db : DB) (boleto_id : ℕ) : DB :=
  { db with lancamentos := db.lancamentos.filter (bol_des_keep boleto_id) }

/-- Embedding of the `Desagrupar` handler (`bol_des_btn`): child reset then
slip delete. -/
def bol_des (db : DB) (boleto_id : ℕ) : DB :=
  bol_des_step2 (bol_des_step1 db boleto_id) boleto_id

/-- Scenario database of spec §8: account `Cora` with opening balance
`1000.00`, one income of `200.00` with status `Recebido`, one expense of
`50.00` with status `Pendente`. -/
def db8 : DB :=
  { contas := [⟨1, "Cora", "CONTA", true, 1000⟩]
    categorias := []
    faturas := []
    lancamentos :=
      [⟨2, "RECEITA", "Receita", 200, 0, none, 1, none, none, none,
          some "Recebido", none⟩,
       ⟨3, "DESPESA", "Despesa", 50, 0, none, 1, none, none, none,
          some "Pendente", none⟩]
    pagamentos_fatura := [] }

/-- Scenario database for statement lookup: one card with two adjacent,
non-overlapping statement periods `[0, 10]` and `[11, 20]`. -/
def db6 : DB :=
  { contas := [⟨1, "Cartão XP", "CARTAO", true, 0⟩]
    categorias := []
    faturas :=
      [⟨1, 1, 0, 0, 10, 10, 24, "ABERTA"⟩,
       ⟨2, 1, 30, 11, 20, 20, 54, "ABERTA"⟩]
    lancamentos := []
    pagamentos_fatura := [] }

/-- An empty store. -/
def db7 : DB := ⟨[], [], [], [], []⟩

/-- Scenario database for paying: funding account `Cora`, one card, the
settlement category, one open statement (id 7) of the card. -/
def dbPay : DB :=
  { contas := [⟨1, "Cora", "CONTA", true, 0⟩, ⟨2, "Cartão XP", "CARTAO", true, 0⟩]
    categorias := [⟨3, "Pagamento de Fatura", true⟩]
    faturas := [⟨7, 2, 0, 0, 10, 10, 24, "ABERTA"⟩]
    lancamentos := []
    pagamentos_fatura := [] }

/-- The store after successfully paying statement 7 of `dbPay` (amount
`100.00` on date 5, fresh ids 50 and 60). -/
def dbPayRes : DB := (fc_pagar dbPay 7 5 100 50 60).toOption.getD dbPay

/-- Scenario database for grouping: account `Cora` and two pending incomes
`A = 30.00` (id 1) and `B = 70.00` (id 2). -/
def db2c : DB :=
  { contas := [⟨1, "Cora", "CONTA", true, 0⟩]
    categorias := []
    faturas := []
    lancamentos :=
      [⟨1, "RECEITA", "A", 30, 0, none, 1, none, none, none,
          some "Pendente", none⟩,
       ⟨2, "RECEITA", "B", 70, 0, none, 1, none, none, none,
          some "Pendente", none⟩]
    pagamentos_fatura := [] }

/-- The observable intermediate state of grouping `{1, 2}` of `db2c` into
slip 5: the slip row is inserted, the children are not yet re-tagged. -/
def db2mid : DB :=
  bol_gerar_step1 db2c 5 "Boleto agrupado" (selTotal db2c [1, 2]) 10 1 none

/-- The final state of that grouping run. -/
def db2fin : DB := bol_gerar_result db2c 5 [1, 2] "Boleto agrupado" 10 1 none

/-! ## Theorems -/

theorem rhe_intCast (m : ℤ) : rhe (m : ℚ) = m := by
  unfold rhe
  rw [Int.floor_intCast, sub_self, if_neg (by norm_num), round_intCast]

theorem round2_cents (q : ℚ) (c : ℤ) (h : 100 * q = (c : ℚ)) : round2 q = q := by
  unfold round2
  rw [h, rhe_intCast, ← h]
  ring

/-- C1: for every positive two-decimal total and count in `[1, 60]`, the Total
mode split has length `count`, sums exactly to `round(total, 2)` (which equals
the total itself, so there is no drift), every element except the last equals
`round(total / count, 2)`, and for `count = 1` the result is
`[round(total, 2)]`. -/
theorem C1_splitTotal_reconciliation (v : ℚ) (n : ℕ) (m : ℤ)
    (hm : 100 * v = (m : ℚ)) (hv : 0 < v) (h1 : 1 ≤ n) (h60 : n ≤ 60) :
    (calc_valores_parcelas v n "Total").length = n ∧
    (calc_valores_parcelas v n "Total").sum = round2 v ∧
    round2 v = v ∧
    (calc_valores_parcelas v n "Total").take (n - 1) =
      List.replicate (n - 1) (round2 (v / n)) ∧
    (n = 1 → calc_valores_parcelas v n "Total" = [round2 v]) := by
  have hr2 : round2 v = v := round2_cents v m hm
  by_cases hn : n ≤ 1
  · have hn1 : n = 1 := le_antisymm hn h1
    subst hn1
    unfold calc_valores_parcelas
    simp [hr2]
  · have hlist : calc_valores_parcelas v n "Total" =
        List.replicate (n - 1) (round2 (v / n)) ++
          [round2 (round2 (v / n) + (v - n * round2 (v / n)))] := by
      unfold calc_valores_parcelas
      rw [if_neg hn, if_pos rfl]
    have hn2 : 2 ≤ n := by omega
    set b : ℤ := rhe (100 * (v / n)) with hb
    have hbase : round2 (v / n) = (b : ℚ) / 100 := rfl
    have hcast : ((n - 1 : ℕ) : ℚ) = (n : ℚ) - 1 := by
      push_cast [Nat.cast_sub h1]
      ring
    -- the last installment is the exact residual
    have harg : round2 (v / n) + (v - n * round2 (v / n)) =
        v - ((n : ℚ) - 1) * ((b : ℚ) / 100) := by
      rw [hbase]; ring
    have hlast : round2 (round2 (v / n) + (v - n * round2 (v / n))) =
        v - ((n : ℚ) - 1) * ((b : ℚ) / 100) := by
      rw [harg]
      refine round2_cents _ (m - ((n : ℤ) - 1) * b) ?_
      push_cast
      rw [← hm]
      ring
    refine ⟨?_, ?_, hr2, ?_, ?_⟩
    · rw [hlist]
      simp only [List.length_append, List.length_replicate, List.length_cons,
        List.length_nil]
      omega
    · rw [hlist, List.sum_append, List.sum_replicate, List.sum_cons,
        List.sum_nil, hlast, hbase, nsmul_eq_mul, hcast, hr2]
      ring
    · rw [hlist]
      have := List.take_left (List.replicate (n - 1) (round2 (v / n)))
        [round2 (round2 (v / n) + (v - n * round2 (v / n)))]
      rwa [List.length_replicate] at this
    · intro h
      omega

/-- C1 witness: splitting a total of `1.00` into three installments gives
a list of length 3 whose sum is exactly the total. -/
theorem C1_splitTotal_reconciliation_witness :
    (calc_valores_parcelas 1 3 "Total").length = 3 ∧
    (calc_valores_parcelas 1 3 "Total").sum = round2 1 ∧
    round2 (1 : ℚ) = 1 :=
  ⟨(C1_splitTotal_reconciliation 1 3 100 (by norm_num) (by norm_num)
      (by norm_num) (by norm_num)).1,
   (C1_splitTotal_reconciliation 1 3 100 (by norm_num) (by norm_num)
      (by norm_num) (by norm_num)).2.1,
   (C1_splitTotal_reconciliation 1 3 100 (by norm_num) (by norm_num)
      (by norm_num) (by norm_num)).2.2.1⟩

theorem sum_ite_filter {α : Type} (l : List α) (p : α → Prop) [DecidablePred p]
    (f : α → ℚ) :
    (l.map (fun x => if p x then f x else 0)).sum =
      ((l.filter (fun x => decide (p x))).map f).sum := by
  induction l with
  | nil => rfl
  | cons x xs ih =>
    by_cases h : p x
    · simp [List.filter_cons, h, ih]
    · simp [List.filter_cons, h, ih]

/-- C4 counterexample: on the spec §8 scenario (opening balance `1000.00`,
income `200.00` with status `Recebido`, expense `50.00` with status
`Pendente`) the code computes a settled balance of `1200.00` — the pending
expense is not deducted — and not the `1150.00` the claim asserts. -/
theorem C4_settled_balance_counterexample :
    saldo_conta_real db8 "Cora" = 1200 ∧ saldo_conta_real db8 "Cora" ≠ 1150 := by
  have h1 : lowerStr "Recebido" = "recebido" := by decide
  have h2 : lowerStr "Pendente" = "pendente" := by decide
  constructor
  · simp [saldo_conta_real, db8, statusEff, h1, h2]
    norm_num
  · simp [saldo_conta_real, db8, statusEff, h1, h2]
    norm_num

/-- C4 (amended): for every account, the settled balance is the opening
balance plus the settled incomes minus the settled expenses, where "settled"
is the case-insensitive terminal status word or a non-null settlement date; on
the spec §8 scenario this yields `1200.00` settled (the pending expense is not
deducted), `50.00` projected payable and `0.00` projected receivable. -/
theorem C4_settled_balance :
    (∀ (db : DB) (nome : String) (c : Conta),
      db.contas.find? (fun c' => c'.nome == nome) = some c →
      saldo_conta_real db nome =
        c.saldo_inicial
        + ((db.lancamentos.filter (fun l =>
              decide (l.conta_id = c.id ∧ l.tipo = "RECEITA" ∧
                (lowerStr (statusEff l) = "recebido" ∨
                  l.dt_liquidacao ≠ none)))).map (fun l => l.valor)).sum
        - ((db.lancamentos.filter (fun l =>
              decide (l.conta_id = c.id ∧ l.tipo = "DESPESA" ∧
                (lowerStr (statusEff l) = "pago" ∨
                  l.dt_liquidacao ≠ none)))).map (fun l => l.valor)).sum) ∧
    saldo_conta_real db8 "Cora" = 1200 ∧
    previsao_pagar_conta db8 "Cora" = 50 ∧
    previsao_receber_conta db8 "Cora" = 0 := by
  have h1 : lowerStr "Recebido" = "recebido" := by decide
  have h2 : lowerStr "Pendente" = "pendente" := by decide
  refine ⟨?_, ?_, ?_, ?_⟩
  · intro db nome c hfind
    unfold saldo_conta_real
    rw [hfind]
    dsimp only
    rw [sum_ite_filter, sum_ite_filter]
  · simp [saldo_conta_real, db8, statusEff, h1, h2]
    norm_num
  · simp [previsao_pagar_conta, db8, statusEff, h1, h2]
  · simp [previsao_receber_conta, db8, statusEff, h1, h2]

/-- C4 witness: the general formula applied to the §8 scenario account. -/
theorem C4_settled_balance_witness :
    saldo_conta_real db8 "Cora" =
      (1000 : ℚ)
      + ((db8.lancamentos.filter (fun l =>
            decide (l.conta_id = 1 ∧ l.tipo = "RECEITA" ∧
              (lowerStr (statusEff l) = "recebido" ∨
                l.dt_liquidacao ≠ none)))).map (fun l => l.valor)).sum
      - ((db8.lancamentos.filter (fun l =>
            decide (l.conta_id = 1 ∧ l.tipo = "DESPESA" ∧
              (lowerStr (statusEff l) = "pago" ∨
                l.dt_liquidacao ≠ none)))).map (fun l => l.valor)).sum :=
  C4_settled_balance.1 db8 "Cora" ⟨1, "Cora", "CONTA", true, 1000⟩ (by decide)

theorem bestFatura_eq_none {l : List Fatura} : bestFatura l = none ↔ l = [] := by
  cases l with
  | nil => simp [bestFatura]
  | cons f fs =>
    simp only [bestFatura]
    cases hx : bestFatura fs with
    | none => simp
    | some g =>
      by_cases hlt : g.dt_fim < f.dt_fim
      · simp [hlt]
      · simp [hlt]

theorem bestFatura_mem {l : List Fatura} {f : Fatura}
    (h : bestFatura l = some f) : f ∈ l := by
  induction l with
  | nil => simp [bestFatura] at h
  | cons x xs ih =>
    simp only [bestFatura] at h
    cases hx : bestFatura xs with
    | none =>
      rw [hx] at h
      dsimp only at h
      injection h with h
      subst h
      exact List.mem_cons_self _ _
    | some g =>
      rw [hx] at h
      dsimp only at h
      by_cases hlt : g.dt_fim < x.dt_fim
      · rw [if_pos hlt] at h
        injection h with h
        subst h
        exact List.mem_cons_self _ _
      · rw [if_neg hlt] at h
        injection h with h
        subst h
        exact List.mem_cons_of_mem _ (ih hx)

theorem bestFatura_max {l : List Fatura} {f : Fatura}
    (h : bestFatura l = some f) : ∀ g ∈ l, g.dt_fim ≤ f.dt_fim := by
  induction l generalizing f with
  | nil => simp [bestFatura] at h
  | cons x xs ih =>
    intro g hg
    simp only [bestFatura] at h
    cases hx : bestFatura xs with
    | none =>
      rw [hx] at h
      dsimp only at h
      injection h with h
      subst h
      have hnil : xs = [] := bestFatura_eq_none.mp hx
      subst hnil
      rcases List.mem_singleton.mp hg with rfl
      exact le_refl _
    | some b =>
      rw [hx] at h
      dsimp only at h
      by_cases hlt : b.dt_fim < x.dt_fim
      · rw [if_pos hlt] at h
        injection h with h
        subst h
        rcases List.mem_cons.mp hg with rfl | hg2
        · exact le_refl _
        · exact le_trans (ih hx g hg2) (le_of_lt hlt)
      · rw [if_neg hlt] at h
        injection h with h
        subst h
        rcases List.mem_cons.mp hg with rfl | hg2
        · exact not_lt.mp hlt
        · exact ih hx g hg2

/-- C6: the statement lookup returns the id of a statement of the card whose
inclusive period contains the date, with the latest `dt_fim` among all
covering statements, and returns `none` exactly when no statement of the card
covers the date; in particular, with two adjacent non-overlapping periods a
date inside one resolves to that period's statement. -/
theorem C6_findCoveringStatement (db : DB) (cartao_id : ℕ) (dt : ℤ) :
    (∀ fid, suggest_fatura_for_date db cartao_id dt = some fid →
      ∃ f, f ∈ db.faturas ∧ f.id = fid ∧ f.conta_id = cartao_id ∧
        f.dt_inicio ≤ dt ∧ dt ≤ f.dt_fim ∧
        ∀ g ∈ db.faturas, g.conta_id = cartao_id → g.dt_inicio ≤ dt →
          dt ≤ g.dt_fim → g.dt_fim ≤ f.dt_fim) ∧
    (suggest_fatura_for_date db cartao_id dt = none ↔
      ∀ f ∈ db.faturas,
        ¬(f.conta_id = cartao_id ∧ f.dt_inicio ≤ dt ∧ dt ≤ f.dt_fim)) := by
  constructor
  · intro fid hfid
    unfold suggest_fatura_for_date at hfid
    cases hb : bestFatura (db.faturas.filter (fun f =>
        decide (f.conta_id = cartao_id ∧ f.dt_inicio ≤ dt ∧ dt ≤ f.dt_fim))) with
    | none => rw [hb] at hfid; simp at hfid
    | some f =>
      rw [hb] at hfid
      simp only [Option.map_some'] at hfid
      injection hfid with hfid
      have hmem := bestFatura_mem hb
      have hmax := bestFatura_max hb
      have hf := List.mem_filter.mp hmem
      have hprop := of_decide_eq_true hf.2
      refine ⟨f, hf.1, hfid, hprop.1, hprop.2.1, hprop.2.2, ?_⟩
      intro g hg h1 h2 h3
      exact hmax g (List.mem_filter.mpr ⟨hg, decide_eq_true ⟨h1, h2, h3⟩⟩)
  · unfold suggest_fatura_for_date
    rw [Option.map_eq_none', bestFatura_eq_none, List.filter_eq_nil_iff]
    simp

/-- C6 witness: on a card with periods `[0, 10]` (statement 1) and `[11, 20]`
(statement 2), the date 5 resolves to statement 1 with all the stated
properties. -/
theorem C6_findCoveringStatement_witness :
    ∃ f, f ∈ db6.faturas ∧ f.id = 1 ∧ f.conta_id = 1 ∧
      f.dt_inicio ≤ (5 : ℤ) ∧ (5 : ℤ) ≤ f.dt_fim ∧
      ∀ g ∈ db6.faturas, g.conta_id = 1 → g.dt_inicio ≤ (5 : ℤ) →
        (5 : ℤ) ≤ g.dt_fim → g.dt_fim ≤ f.dt_fim :=
  (C6_findCoveringStatement db6 1 5).1 1 (by decide)

/-- C7: the statement upsert keyed on `(card, billingMonth)` rejects
`periodStart > periodEnd` with no write; creates a fresh `ABERTA` statement
when the key is absent; and when the key exists rewrites the table through
`f_upd`, which changes only the four date columns of the matching rows and
leaves id, status, card and billing month of every row unchanged. -/
theorem C7_statement_upsert (db : DB) (cid : ℕ) (comp ini fim fech venc : ℤ)
    (nid : ℕ) :
    (fim < ini →
      f_save db cid comp ini fim fech venc nid = .error .invalidPeriod) ∧
    (ini ≤ fim →
      db.faturas.find? (fun f => f.conta_id == cid && f.competencia == comp)
        = none →
      f_save db cid comp ini fim fech venc nid =
        .ok { db with faturas := db.faturas ++
          [⟨nid, cid, comp, ini, fim, fech, venc, "ABERTA"⟩] }) ∧
    (ini ≤ fim → ∀ f0,
      db.faturas.find? (fun f => f.conta_id == cid && f.competencia == comp)
        = some f0 →
      f_save db cid comp ini fim fech venc nid =
        .ok { db with faturas :=
          db.faturas.map (f_upd cid comp ini fim fech venc) } ∧
      ∀ g : Fatura,
        (f_upd cid comp ini fim fech venc g).id = g.id ∧
        (f_upd cid comp ini fim fech venc g).status = g.status ∧
        (f_upd cid comp ini fim fech venc g).conta_id = g.conta_id ∧
        (f_upd cid comp ini fim fech venc g).competencia = g.competencia ∧
        (g.conta_id = cid ∧ g.competencia = comp →
          (f_upd cid comp ini fim fech venc g).dt_inicio = ini ∧
          (f_upd cid comp ini fim fech venc g).dt_fim = fim ∧
          (f_upd cid comp ini fim fech venc g).dt_fechamento = fech ∧
          (f_upd cid comp ini fim fech venc g).dt_vencimento = venc) ∧
        (¬(g.conta_id = cid ∧ g.competencia = comp) →
          f_upd cid comp ini fim fech venc g = g)) := by
  refine ⟨?_, ?_, ?_⟩
  · intro h
    unfold f_save
    rw [if_pos h]
  · intro hle hnone
    unfold f_save
    rw [if_neg (not_lt.mpr hle), hnone]
  · intro hle f0 hsome
    constructor
    · unfold f_save
      rw [if_neg (not_lt.mpr hle), hsome]
    · intro g
      unfold f_upd
      by_cases hg : g.conta_id = cid ∧ g.competencia = comp
      · rw [if_pos hg]
        exact ⟨rfl, rfl, rfl, rfl, fun _ => ⟨rfl, rfl, rfl, rfl⟩,
          fun h => absurd hg h⟩
      · rw [if_neg hg]
        exact ⟨rfl, rfl, rfl, rfl, fun h => absurd h hg, fun _ => rfl⟩

/-- C7 witness: on an empty store the upsert with a valid period creates a
fresh open statement. -/
theorem C7_statement_upsert_witness :
    f_save db7 1 0 0 1 1 2 7 =
      .ok { db7 with faturas := db7.faturas ++ [⟨7, 1, 0, 0, 1, 1, 2, "ABERTA"⟩] } :=
  (C7_statement_upsert db7 1 0 0 1 1 2 7).2.1 (by norm_num) (by rfl)

theorem findFatura_setFaturaStatus (db : DB) (fid : ℕ) (s : String) :
    findFatura (setFaturaStatus db fid s) fid =
      (findFatura db fid).map (fun f => { f with status := s }) := by
  unfold findFatura setFaturaStatus
  dsimp only
  induction db.faturas with
  | nil => rfl
  | cons x xs ih =>
    by_cases hx : x.id = fid
    · rw [List.map_cons, if_pos hx]
      simp [hx]
    · rw [List.map_cons, if_neg hx]
      simp [hx, ih]

theorem payWrites_fields (db : DB) (fid : ℕ) (dt : ℤ) (v : ℚ)
    (lid pid : ℕ) (f : Fatura) (cora : Conta) :
    (payWrites db fid dt v lid pid f cora).contas = db.contas ∧
    (payWrites db fid dt v lid pid f cora).categorias = db.categorias ∧
    (payWrites db fid dt v lid pid f cora).lancamentos =
      db.lancamentos ++ [lancSaida db f cora v dt lid] ∧
    (payWrites db fid dt v lid pid f cora).pagamentos_fatura =
      db.pagamentos_fatura ++ [⟨pid, fid, lid, dt, v⟩] ∧
    statusFatura (payWrites db fid dt v lid pid f cora) fid =
      (findFatura db fid).map (fun g => "PAGA") := by
  refine ⟨rfl, rfl, rfl, rfl, ?_⟩
  unfold statusFatura payWrites
  rw [findFatura_setFaturaStatus]
  have : findFatura
      { db with
          lancamentos := db.lancamentos ++ [lancSaida db f cora v dt lid],
          pagamentos_fatura := db.pagamentos_fatura ++
            [⟨pid, fid, lid, dt, v⟩] } fid = findFatura db fid := rfl
  rw [this, Option.map_map]
  rfl

theorem fc_pagar_ok_inv {db : DB} {fid : ℕ} {dt : ℤ} {v : ℚ}
    {lid pid : ℕ} {db2 : DB}
    (h : fc_pagar db fid dt v lid pid = .ok db2) :
    ∃ cora f, findContaAtiva db "Cora" = some cora ∧
      findFatura db fid = some f ∧ f.status ≠ "PAGA" ∧ ¬(v ≤ 0) ∧
      db2 = payWrites db fid dt v lid pid f cora := by
  unfold fc_pagar at h
  cases hcora : findContaAtiva db "Cora" with
  | none => rw [hcora] at h; exact absurd h (by simp)
  | some cora =>
    rw [hcora] at h
    dsimp only at h
    cases hfat : findFatura db fid with
    | none => rw [hfat] at h; exact absurd h (by simp)
    | some f =>
      rw [hfat] at h
      dsimp only at h
      by_cases hst : f.status = "PAGA"
      · rw [if_pos hst] at h; exact absurd h (by simp)
      · rw [if_neg hst] at h
        by_cases hval : v ≤ 0
        · rw [if_pos hval] at h; exact absurd h (by simp)
        · rw [if_neg hval] at h
          injection h with h
          exact ⟨cora, f, rfl, rfl, hst, hval, h.symm⟩

/-- C3: `Paid` is terminal.  On a statement whose status is `PAGA`, close,
reopen and pay (the latter whenever the funding account exists, which is the
only situation where the pay action is offered) all fail with the
already-paid condition and perform no write; and after any successful pay the
statement's status is `PAGA` and every subsequent pay, close and reopen on it
fails with the already-paid condition. -/
theorem C3_paid_terminal :
    (∀ (db : DB) (fid : ℕ) (f : Fatura),
      findFatura db fid = some f → f.status = "PAGA" →
      fc_fechar db fid = .error .alreadyPaid ∧
      fc_abrir db fid = .error .alreadyPaid ∧
      ∀ c, findContaAtiva db "Cora" = some c →
        ∀ (dt : ℤ) (v : ℚ) (lid pid : ℕ),
          fc_pagar db fid dt v lid pid = .error .alreadyPaid) ∧
    (∀ (db : DB) (fid : ℕ) (dt : ℤ) (v : ℚ) (lid pid : ℕ) (db2 : DB),
      fc_pagar db fid dt v lid pid = .ok db2 →
      statusFatura db2 fid = some "PAGA" ∧
      (∀ (dt2 : ℤ) (v2 : ℚ) (l2 p2 : ℕ),
        fc_pagar db2 fid dt2 v2 l2 p2 = .error .alreadyPaid) ∧
      fc_fechar db2 fid = .error .alreadyPaid ∧
      fc_abrir db2 fid = .error .alreadyPaid) := by
  have hguards : ∀ (db : DB) (fid : ℕ) (f : Fatura),
      findFatura db fid = some f → f.status = "PAGA" →
      fc_fechar db fid = .error .alreadyPaid ∧
      fc_abrir db fid = .error .alreadyPaid ∧
      ∀ c, findContaAtiva db "Cora" = some c →
        ∀ (dt : ℤ) (v : ℚ) (lid pid : ℕ),
          fc_pagar db fid dt v lid pid = .error .alreadyPaid := by
    intro db fid f hfat hst
    refine ⟨?_, ?_, ?_⟩
    · unfold fc_fechar
      rw [hfat]
      dsimp only
      rw [if_pos hst]
    · unfold fc_abrir
      rw [hfat]
      dsimp only
      rw [if_pos hst]
    · intro c hc dt v lid pid
      unfold fc_pagar
      rw [hc]
      dsimp only
      rw [hfat]
      dsimp only
      rw [if_pos hst]
  refine ⟨hguards, ?_⟩
  intro db fid dt v lid pid db2 h
  obtain ⟨cora, f, hcora, hfat, hst, hval, hdb2⟩ := fc_pagar_ok_inv h
  have hw := payWrites_fields db fid dt v lid pid f cora
  have hstatus : statusFatura db2 fid = some "PAGA" := by
    rw [hdb2, hw.2.2.2.2, hfat]
    rfl
  have hfat2 : findFatura db2 fid = some { f with status := "PAGA" } := by
    rw [hdb2]
    unfold payWrites
    rw [findFatura_setFaturaStatus]
    have : findFatura
        { db with
            lancamentos := db.lancamentos ++ [lancSaida db f cora v dt lid],
            pagamentos_fatura := db.pagamentos_fatura ++
              [⟨pid, fid, lid, dt, v⟩] } fid = findFatura db fid := rfl
    rw [this, hfat, Option.map_some']
  have hcora2 : findContaAtiva db2 "Cora" = some cora := by
    have hcontas : db2.contas = db.contas := by rw [hdb2]; exact hw.1
    unfold findContaAtiva
    rw [hcontas]
    exact hcora
  exact ⟨hstatus,
    fun dt2 v2 l2 p2 =>
      (hguards db2 fid _ hfat2 rfl).2.2 cora hcora2 dt2 v2 l2 p2,
    (hguards db2 fid _ hfat2 rfl).1,
    (hguards db2 fid _ hfat2 rfl).2.1⟩

/-- C3 witness: paying the open statement 7 of `dbPay` succeeds, after which
its status is `PAGA` and a second pay is rejected with the already-paid
condition. -/
theorem C3_paid_terminal_witness :
    statusFatura dbPayRes 7 = some "PAGA" ∧
    fc_pagar dbPayRes 7 6 100 51 61 = .error .alreadyPaid ∧
    fc_fechar dbPayRes 7 = .error .alreadyPaid ∧
    fc_abrir dbPayRes 7 = .error .alreadyPaid := by
  have h : fc_pagar dbPay 7 5 100 50 60 = .ok dbPayRes := rfl
  have := C3_paid_terminal.2 dbPay 7 5 100 50 60 dbPayRes h
  exact ⟨this.1, this.2.1 6 100 51 61, this.2.2.1, this.2.2.2⟩

theorem DB_ext {a b : DB} (h1 : a.contas = b.contas)
    (h2 : a.categorias = b.categorias) (h3 : a.faturas = b.faturas)
    (h4 : a.lancamentos = b.lancamentos)
    (h5 : a.pagamentos_fatura = b.pagamentos_fatura) : a = b := by
  cases a
  cases b
  dsimp only at h1 h2 h3 h4 h5
  subst h1 h2 h3 h4 h5
  rfl

theorem boleto_ne_tag (boleto_id : ℕ) :
    ("Boleto" : String) ≠ boletoTag boleto_id := by
  intro h
  have hlen := congrArg String.length h
  unfold boletoTag at hlen
  rw [String.length_append] at hlen
  have h6 : ("Boleto" : String).length = 6 := rfl
  have h7 : ("Boleto:" : String).length = 7 := rfl
  omega

theorem bol_des_upd_of_ne {boleto_id : ℕ} {l : Lancamento}
    (h : l.forma_pagamento ≠ some (boletoTag boleto_id)) :
    bol_des_upd boleto_id l = l := by
  unfold bol_des_upd
  rw [if_neg h]

theorem bol_des_keep_of_not {boleto_id : ℕ} {l : Lancamento}
    (h : ¬(l.id = boleto_id ∧ l.tipo = "RECEITA" ∧
      l.forma_pagamento = some "Boleto")) :
    bol_des_keep boleto_id l = true := by
  unfold bol_des_keep
  simp only [Bool.not_eq_true', Bool.and_eq_false_imp, Bool.not_eq_eq_eq_not]
  simp only [Bool.not_true, Bool.not_eq_true]
  by_cases h1 : l.id = boleto_id
  · by_cases h2 : l.tipo = "RECEITA"
    · have h3 : l.forma_pagamento ≠ some "Boleto" := fun hc =>
        h ⟨h1, h2, hc⟩
      simp [h1, h2, h3]
    · simp [h2]
  · simp [h1]

theorem untag_tag {boleto_id : ℕ} {ids : List ℕ} {l : Lancamento}
    (h1 : l.status = some "Pendente") (h2 : l.forma_pagamento = none)
    (hin : l.id ∈ ids) :
    bol_des_upd boleto_id (bol_gerar_upd ids boleto_id l) = l := by
  cases l
  dsimp only at h1 h2
  subst h1 h2
  unfold bol_gerar_upd
  dsimp only at hin ⊢
  rw [if_pos hin]
  unfold bol_des_upd
  dsimp only
  rw [if_pos rfl]

/-- C2 counterexample: grouping the pending incomes `{1, 2}` of `db2c` into
slip 5 exposes an observable intermediate state `db2mid` — reached after the
first of the operation's two separate commits — that differs from both the
initial and the final state: the slip row (id 5, method `Boleto`) already
exists while child 1 is still `Pendente` and untagged.  So the
group operation is not one atomic unit. -/
theorem C2_atomicity_counterexample :
    bol_gerar db2c 5 [1, 2] "Boleto agrupado" 10 1 none = .ok db2fin ∧
    db2mid ∈ bol_gerar_obs db2c 5 [1, 2] "Boleto agrupado" 10 1 none ∧
    db2mid ≠ db2c ∧
    db2mid ≠ db2fin ∧
    (∃ l ∈ db2mid.lancamentos, l.id = 5 ∧ l.forma_pagamento = some "Boleto" ∧
      l.status = some "Pendente") ∧
    (∃ l ∈ db2mid.lancamentos, l.id = 1 ∧ l.status = some "Pendente" ∧
      l.forma_pagamento = none) := by
  have htot : selTotal db2c [1, 2] = 100 := by
    norm_num [selTotal, db2c]
  have hne : ¬(selTotal db2c [1, 2] ≤ 0) := by rw [htot]; norm_num
  have hemp : ¬((([1, 2] : List ℕ).isEmpty) = true) := by simp
  refine ⟨?_, ?_, ?_, ?_, ?_, ?_⟩
  · unfold bol_gerar
    rw [if_neg hemp, if_neg hne]
    rfl
  · unfold bol_gerar_obs
    rw [if_neg hemp, if_neg hne]
    exact List.mem_cons_of_mem _ (List.mem_cons_self _ _)
  · intro h
    have := congrArg (fun d => d.lancamentos.length) h
    simp [db2mid, db2c, bol_gerar_step1, boletoRow] at this
  · intro h
    have := congrArg (fun d => d.lancamentos.head?) h
    simp [db2mid, db2fin, db2c, bol_gerar_result, bol_gerar_step1,
      bol_gerar_step2, bol_gerar_upd, boletoRow, boletoTag] at this
  · refine ⟨boletoRow 5 "Boleto agrupado" (selTotal db2c [1, 2]) 10 1 none,
      ?_, rfl, rfl, rfl⟩
    exact List.mem_append_right _ (List.mem_cons_self _ _)
  · refine ⟨⟨1, "RECEITA", "A", 30, 0, none, 1, none, none, none,
      some "Pendente", none⟩, ?_, rfl, rfl, rfl⟩
    exact List.mem_append_left _ (List.mem_cons_self _ _)

/-- C2 (amended): paying a statement is atomic — its three writes (settlement
expense insert, settlement row insert, status update to `PAGA`) happen in one
transaction, so every observable state of a successful pay run is the initial
or the final state, and the final state carries all three writes.  (Grouping
and ungrouping, by contrast, each run as two separate transactions; see the
counterexample.) -/
theorem C2_pay_atomicity :
    ∀ (db : DB) (fid : ℕ) (dt : ℤ) (v : ℚ) (lid pid : ℕ) (db2 : DB),
      fc_pagar db fid dt v lid pid = .ok db2 →
      (∀ s ∈ fc_pagar_obs db fid dt v lid pid, s = db ∨ s = db2) ∧
      statusFatura db2 fid = some "PAGA" ∧
      (∃ p ∈ db2.pagamentos_fatura, p.fatura_id = fid ∧
        p.lancamento_saida_id = lid ∧ p.dt_pagamento = dt ∧ p.valor = v) ∧
      (∃ l ∈ db2.lancamentos, l.id = lid ∧ l.tipo = "DESPESA" ∧ l.valor = v ∧
        l.dt_liquidacao = some dt ∧ l.status = some "Pago") := by
  intro db fid dt v lid pid db2 h
  obtain ⟨cora, f, hcora, hfat, hst, hval, hdb2⟩ := fc_pagar_ok_inv h
  have hw := payWrites_fields db fid dt v lid pid f cora
  refine ⟨?_, ?_, ?_, ?_⟩
  · intro s hs
    unfold fc_pagar_obs at hs
    rw [h] at hs
    dsimp only at hs
    rcases List.mem_cons.mp hs with rfl | hs2
    · exact Or.inl rfl
    · rcases List.mem_cons.mp hs2 with rfl | hs3
      · exact Or.inr rfl
      · exact absurd hs3 (List.not_mem_nil _)
  · rw [hdb2, hw.2.2.2.2, hfat]
    rfl
  · refine ⟨⟨pid, fid, lid, dt, v⟩, ?_, rfl, rfl, rfl, rfl⟩
    rw [hdb2, hw.2.2.2.1]
    exact List.mem_append_right _ (List.mem_cons_self _ _)
  · refine ⟨lancSaida db f cora v dt lid, ?_, rfl, rfl, rfl, rfl, rfl⟩
    rw [hdb2, hw.2.2.1]
    exact List.mem_append_right _ (List.mem_cons_self _ _)

/-- C2 witness: the concrete pay run on `dbPay` is atomic and its final state
carries the settlement row. -/
theorem C2_pay_atomicity_witness :
    (∀ s ∈ fc_pagar_obs dbPay 7 5 100 50 60, s = dbPay ∨ s = dbPayRes) ∧
    statusFatura dbPayRes 7 = some "PAGA" ∧
    (∃ p ∈ dbPayRes.pagamentos_fatura, p.fatura_id = 7 ∧
      p.lancamento_saida_id = 50 ∧ p.dt_pagamento = 5 ∧ p.valor = 100) :=
  ⟨(C2_pay_atomicity dbPay 7 5 100 50 60 dbPayRes rfl).1,
   (C2_pay_atomicity dbPay 7 5 100 50 60 dbPayRes rfl).2.1,
   (C2_pay_atomicity dbPay 7 5 100 50 60 dbPayRes rfl).2.2.1⟩

/-- C5: grouping a non-empty selection of pending, untagged incomes with
positive sum (under fresh slip id) creates one new pending `Boleto` income
whose amount is the selected sum, re-tags each selected row as `Agrupada`
with the reference tag `Boleto:<id>`, and ungrouping the slip id restores the
store exactly to the pre-grouping state. -/
theorem C5_group_ungroup_inverse :
    ∀ (db : DB) (boleto_id : ℕ) (ids : List ℕ) (descricao : String)
      (venc : ℤ) (conta_id : ℕ) (cat_id : Option ℕ),
    ids ≠ [] →
    boleto_id ∉ ids →
    (∀ l ∈ db.lancamentos, l.id ≠ boleto_id) →
    (∀ l ∈ db.lancamentos, l.id ∈ ids →
      l.tipo = "RECEITA" ∧ l.status = some "Pendente" ∧
        l.forma_pagamento = none) →
    (∀ l ∈ db.lancamentos, l.forma_pagamento ≠ some (boletoTag boleto_id)) →
    0 < selTotal db ids →
    bol_gerar db boleto_id ids descricao venc conta_id cat_id =
      .ok (bol_gerar_result db boleto_id ids descricao venc conta_id cat_id) ∧
    (∃ l ∈ (bol_gerar_result db boleto_id ids descricao venc conta_id
        cat_id).lancamentos,
      l.id = boleto_id ∧ l.tipo = "RECEITA" ∧ l.valor = selTotal db ids ∧
      l.status = some "Pendente" ∧ l.forma_pagamento = some "Boleto") ∧
    (∀ l ∈ db.lancamentos, l.id ∈ ids →
      ({ l with status := some "Agrupada",
                forma_pagamento := some (boletoTag boleto_id) } :
          Lancamento) ∈
        (bol_gerar_result db boleto_id ids descricao venc conta_id
          cat_id).lancamentos) ∧
    bol_des (bol_gerar_result db boleto_id ids descricao venc conta_id cat_id)
      boleto_id = db := by
  intro db boleto_id ids descricao venc conta_id cat_id hne hnotin hfresh
    hsel htag hpos
  have hemp : ¬((ids.isEmpty) = true) := by
    cases ids with
    | nil => exact absurd rfl hne
    | cons a as => simp
  have hslip_id :
      (boletoRow boleto_id descricao (selTotal db ids) venc conta_id
        cat_id).id = boleto_id := rfl
  have hslip_tag :
      bol_gerar_upd ids boleto_id
        (boletoRow boleto_id descricao (selTotal db ids) venc conta_id
          cat_id) =
      boletoRow boleto_id descricao (selTotal db ids) venc conta_id cat_id := by
    unfold bol_gerar_upd
    rw [if_neg]
    exact hnotin
  have hlancs : (bol_gerar_result db boleto_id ids descricao venc conta_id
      cat_id).lancamentos =
      db.lancamentos.map (bol_gerar_upd ids boleto_id) ++
        [boletoRow boleto_id descricao (selTotal db ids) venc conta_id
          cat_id] := by
    unfold bol_gerar_result bol_gerar_step2 bol_gerar_step1
    dsimp only
    rw [List.map_append, List.map_singleton, hslip_tag]
  refine ⟨?_, ?_, ?_, ?_⟩
  · unfold bol_gerar
    rw [if_neg hemp, if_neg (not_le.mpr hpos)]
  · refine ⟨boletoRow boleto_id descricao (selTotal db ids) venc conta_id
      cat_id, ?_, rfl, rfl, rfl, rfl, rfl⟩
    rw [hlancs]
    exact List.mem_append_right _ (List.mem_cons_self _ _)
  · intro l hl hin
    rw [hlancs]
    refine List.mem_append_left _ (List.mem_map.mpr ⟨l, hl, ?_⟩)
    unfold bol_gerar_upd
    rw [if_pos hin]
  · refine DB_ext rfl rfl rfl ?_ rfl
    unfold bol_des bol_des_step2 bol_des_step1
    dsimp only
    rw [hlancs, List.map_append, List.map_singleton, List.map_map]
    have huntag : db.lancamentos.map
        (bol_des_upd boleto_id ∘ bol_gerar_upd ids boleto_id) =
        db.lancamentos := by
      rw [List.map_congr_left, List.map_id]
      intro l hl
      by_cases hin : l.id ∈ ids
      · exact untag_tag (hsel l hl hin).2.1 (hsel l hl hin).2.2 hin
      · show bol_des_upd boleto_id (bol_gerar_upd ids boleto_id l) = l
        unfold bol_gerar_upd
        rw [if_neg hin]
        exact bol_des_upd_of_ne (htag l hl)
    have hslip_untag : bol_des_upd boleto_id
        (boletoRow boleto_id descricao (selTotal db ids) venc conta_id
          cat_id) =
        boletoRow boleto_id descricao (selTotal db ids) venc conta_id
          cat_id := by
      apply bol_des_upd_of_ne
      show some "Boleto" ≠ some (boletoTag boleto_id)
      intro hc
      exact boleto_ne_tag boleto_id (Option.some.inj hc)
    rw [huntag, hslip_untag, List.filter_append]
    have hkeep : db.lancamentos.filter (bol_des_keep boleto_id) =
        db.lancamentos := by
      rw [List.filter_eq_self]
      intro l hl
      exact bol_des_keep_of_not (fun hc => hfresh l hl hc.1)
    have hdrop : ([boletoRow boleto_id descricao (selTotal db ids) venc
        conta_id cat_id].filter (bol_des_keep boleto_id)) = [] := by
      rw [List.filter_cons]
      have : bol_des_keep boleto_id
          (boletoRow boleto_id descricao (selTotal db ids) venc conta_id
            cat_id) = false := by
        unfold bol_des_keep boletoRow
        simp
      rw [this]
      simp
    rw [hkeep, hdrop, List.append_nil]

/-- C5 witness: grouping `{A = 30.00, B = 70.00}` of `db2c` into slip 5 and
ungrouping it restores the original store. -/
theorem C5_group_ungroup_inverse_witness :
    bol_des (bol_gerar_result db2c 5 [1, 2] "Boleto agrupado" 10 1 none) 5 =
      db2c :=
  (C5_group_ungroup_inverse db2c 5 [1, 2] "Boleto agrupado" 10 1 none
    (by decide) (by decide) (by decide) (by decide) (by decide)
    (by norm_num [selTotal, db2c])).2.2.2

/-- C10: ungrouping touches only genuine slip state.  It never changes the
accounts, categories, statements or settlements tables; if no row carries the
reference tag `Boleto:<id>` and no row is a `RECEITA` with id `<id>` and
method `Boleto`, the store is unchanged; and any row with neither the tag nor
the delete key survives untouched. -/
theorem C10_ungroup_frame :
    ∀ (db : DB) (boleto_id : ℕ),
    (bol_des db boleto_id).contas = db.contas ∧
    (bol_des db boleto_id).categorias = db.categorias ∧
    (bol_des db boleto_id).faturas = db.faturas ∧
    (bol_des db boleto_id).pagamentos_fatura = db.pagamentos_fatura ∧
    ((∀ l ∈ db.lancamentos,
        l.forma_pagamento ≠ some (boletoTag boleto_id) ∧
        ¬(l.id = boleto_id ∧ l.tipo = "RECEITA" ∧
          l.forma_pagamento = some "Boleto")) →
      bol_des db boleto_id = db) ∧
    (∀ l ∈ db.lancamentos, l.forma_pagamento ≠ some (boletoTag boleto_id) →
      ¬(l.id = boleto_id ∧ l.tipo = "RECEITA" ∧
        l.forma_pagamento = some "Boleto") →
      l ∈ (bol_des db boleto_id).lancamentos) := by
  intro db boleto_id
  refine ⟨rfl, rfl, rfl, rfl, ?_, ?_⟩
  · intro h
    refine DB_ext rfl rfl rfl ?_ rfl
    unfold bol_des bol_des_step2 bol_des_step1
    dsimp only
    have hmap : db.lancamentos.map (bol_des_upd boleto_id) =
        db.lancamentos := by
      rw [List.map_congr_left, List.map_id]
      intro l hl
      exact bol_des_upd_of_ne (h l hl).1
    rw [hmap, List.filter_eq_self]
    intro l hl
    exact bol_des_keep_of_not (h l hl).2
  · intro l hl h1 h2
    unfold bol_des bol_des_step2 bol_des_step1
    dsimp only
    refine List.mem_filter.mpr ⟨?_, bol_des_keep_of_not h2⟩
    have : bol_des_upd boleto_id l = l := bol_des_upd_of_ne h1
    rw [← this]
    exact List.mem_map_of_mem _ hl

/-- C10 witness: ungrouping with the unused id 99 leaves `db2c` unchanged. -/
theorem C10_ungroup_frame_witness : bol_des db2c 99 = db2c :=
  (C10_ungroup_frame db2c 99).2.2.2.2.1 (by decide)

theorem charVal_digitChar {d : ℕ} (h : d < 10) : charVal (digitChar d) = d := by
  interval_cases d <;> decide

theorem digitChar_facts {d : ℕ} (h : d < 10) :
    (digitChar d).isDigit = true ∧ isPySpace (digitChar d) = false ∧
    charAllowed (digitChar d) = true ∧ digitChar d ≠ 'R' ∧
    ((digitChar d == ',') = false) ∧ ((digitChar d == '.') = false) ∧
    ((digitChar d == '-') = false) := by
  interval_cases d <;> decide

theorem money_char_facts {c : Char}
    (h : (∃ d, d < 10 ∧ c = digitChar d) ∨ c = ',' ∨ c = '.' ∨ c = '-') :
    charAllowed c = true ∧ isPySpace c = false ∧ c ≠ 'R' := by
  rcases h with ⟨d, hd, rfl⟩ | rfl | rfl | rfl
  · exact ⟨(digitChar_facts hd).2.2.1, (digitChar_facts hd).2.1,
      (digitChar_facts hd).2.2.2.1⟩
  · decide
  · decide
  · decide

theorem natDigitsAux_spec :
    ∀ (fuel n : ℕ), n < fuel →
      (∀ c ∈ natDigitsAux fuel n, ∃ d, d < 10 ∧ c = digitChar d) ∧
      natDigitsAux fuel n ≠ [] ∧
      (∀ a : ℕ,
        (natDigitsAux fuel n).foldl (fun x c => 10 * x + charVal c) a =
          a * 10 ^ (natDigitsAux fuel n).length + n) := by
  intro fuel
  induction fuel with
  | zero => intro n h; omega
  | succ fuel ih =>
    intro n h
    by_cases h10 : n < 10
    · have heq : natDigitsAux (fuel + 1) n = [digitChar n] := by
        have : natDigitsAux (fuel + 1) n = if n < 10 then [digitChar n]
          else natDigitsAux fuel (n / 10) ++ [digitChar (n % 10)] := rfl
        rw [this, if_pos h10]
      refine ⟨?_, ?_, ?_⟩
      · intro c hc
        rw [heq] at hc
        rcases List.mem_singleton.mp hc with rfl
        exact ⟨n, h10, rfl⟩
      · rw [heq]
        simp
      · intro a
        rw [heq]
        show 10 * a + charVal (digitChar n) = a * 10 ^ 1 + n
        rw [charVal_digitChar h10]
        ring
    · have hd : n / 10 < fuel := by
        have h1 : n / 10 < n := Nat.div_lt_self (by omega) (by omega)
        omega
      obtain ⟨hmem, hne, hfold⟩ := ih (n / 10) hd
      have heq : natDigitsAux (fuel + 1) n =
          natDigitsAux fuel (n / 10) ++ [digitChar (n % 10)] := by
        have : natDigitsAux (fuel + 1) n = if n < 10 then [digitChar n]
          else natDigitsAux fuel (n / 10) ++ [digitChar (n % 10)] := rfl
        rw [this, if_neg h10]
      have hm10 : n % 10 < 10 := Nat.mod_lt _ (by omega)
      refine ⟨?_, ?_, ?_⟩
      · intro c hc
        rw [heq] at hc
        rcases List.mem_append.mp hc with hc1 | hc2
        · exact hmem c hc1
        · rcases List.mem_singleton.mp hc2 with rfl
          exact ⟨n % 10, hm10, rfl⟩
      · rw [heq]
        intro hc
        exact hne (List.append_eq_nil.mp hc).1
      · intro a
        rw [heq, List.foldl_append, hfold a, List.foldl_cons, List.foldl_nil,
          charVal_digitChar hm10, List.length_append, List.length_singleton,
          pow_succ]
        have hdm : 10 * (n / 10) + n % 10 = n := Nat.div_add_mod n 10
        calc 10 * (a * 10 ^ (natDigitsAux fuel (n / 10)).length + n / 10) +
              n % 10
            = a * (10 ^ (natDigitsAux fuel (n / 10)).length * 10) +
              (10 * (n / 10) + n % 10) := by ring
          _ = a * (10 ^ (natDigitsAux fuel (n / 10)).length * 10) + n := by
              rw [hdm]

theorem natDigits_spec (n : ℕ) :
    (∀ c ∈ natDigits n, ∃ d, d < 10 ∧ c = digitChar d) ∧
    natDigits n ≠ [] ∧ parseNat (natDigits n) = n := by
  obtain ⟨h1, h2, h3⟩ := natDigitsAux_spec (n + 1) n (Nat.lt_succ_self n)
  refine ⟨h1, h2, ?_⟩
  have := h3 0
  simpa [parseNat, natDigits] using this

theorem twoDigits_spec {k : ℕ} (h : k < 100) :
    (∀ c ∈ twoDigits k, ∃ d, d < 10 ∧ c = digitChar d) ∧
    parseNat (twoDigits k) = k ∧ (twoDigits k).length = 2 := by
  have h1 : k / 10 < 10 := by omega
  have h2 : k % 10 < 10 := Nat.mod_lt _ (by omega)
  refine ⟨?_, ?_, rfl⟩
  · intro c hc
    rcases List.mem_cons.mp hc with rfl | hc
    · exact ⟨k / 10, h1, rfl⟩
    rcases List.mem_cons.mp hc with rfl | hc
    · exact ⟨k % 10, h2, rfl⟩
    · exact absurd hc (List.not_mem_nil c)
  · show 10 * (10 * 0 + charVal (digitChar (k / 10))) +
        charVal (digitChar (k % 10)) = k
    rw [charVal_digitChar h1, charVal_digitChar h2]
    omega

theorem filter_nondot_eq_self {l : List Char}
    (h : ∀ x ∈ l, (x == '.') = false) :
    l.filter (fun c => !(c == '.')) = l :=
  List.filter_eq_self.mpr (fun a ha => by rw [h a ha]; rfl)

theorem group3_spec : ∀ (k : ℕ) (l : List Char), l.length ≤ k →
    (∀ x ∈ group3 l, x ∈ l ∨ x = '.') ∧
    ((∀ x ∈ l, (x == '.') = false) →
      (group3 l).filter (fun c => !(c == '.')) = l) := by
  intro k
  induction k with
  | zero =>
    intro l hl
    have hnil : l = [] := List.length_eq_zero.mp (Nat.le_zero.mp hl)
    subst hnil
    exact ⟨fun x hx => absurd hx (List.not_mem_nil x), fun _ => rfl⟩
  | succ k ih =>
    intro l hl
    match l with
    | [] => exact ⟨fun x hx => absurd hx (List.not_mem_nil x), fun _ => rfl⟩
    | [a] => exact ⟨fun x hx => Or.inl hx, fun h => filter_nondot_eq_self h⟩
    | [a, b] => exact ⟨fun x hx => Or.inl hx, fun h => filter_nondot_eq_self h⟩
    | [a, b, c] =>
      exact ⟨fun x hx => Or.inl hx, fun h => filter_nondot_eq_self h⟩
    | a :: b :: c :: d :: rest =>
      have heq : group3 (a :: b :: c :: d :: rest) =
          a :: b :: c :: '.' :: group3 (d :: rest) := rfl
      have hlen : (d :: rest).length ≤ k := by
        simp only [List.length_cons] at hl ⊢
        omega
      obtain ⟨ihm, ihf⟩ := ih (d :: rest) hlen
      constructor
      · intro x hx
        rw [heq] at hx
        rcases List.mem_cons.mp hx with rfl | hx
        · exact Or.inl (by simp)
        rcases List.mem_cons.mp hx with rfl | hx
        · exact Or.inl (by simp)
        rcases List.mem_cons.mp hx with rfl | hx
        · exact Or.inl (by simp)
        rcases List.mem_cons.mp hx with rfl | hx
        · exact Or.inr rfl
        · rcases ihm x hx with hin | hdot
          · exact Or.inl (List.mem_cons_of_mem _ (List.mem_cons_of_mem _
              (List.mem_cons_of_mem _ hin)))
          · exact Or.inr hdot
      · intro h
        have ha := h a (by simp)
        have hb := h b (by simp)
        have hc := h c (by simp)
        have h4 : ∀ x ∈ d :: rest, (x == '.') = false := fun x hx =>
          h x (List.mem_cons_of_mem _ (List.mem_cons_of_mem _
            (List.mem_cons_of_mem _ hx)))
        rw [heq]
        simp only [List.filter_cons, ha, hb, hc, beq_self_eq_true,
          Bool.not_false, Bool.not_true, if_true, if_false]
        rw [ihf h4]
        simp

theorem dropWhile_of_neg {p : Char → Bool} (l : List Char)
    (h : ∀ c ∈ l, p c = false) : l.dropWhile p = l := by
  cases l with
  | nil => rfl
  | cons a t => simp [List.dropWhile_cons, h a (List.mem_cons_self a t)]

theorem pyStrip_of_no_space {l : List Char}
    (h : ∀ c ∈ l, isPySpace c = false) : pyStrip l = l := by
  unfold pyStrip
  rw [dropWhile_of_neg l h,
    dropWhile_of_neg l.reverse (fun c hc => h c (List.mem_reverse.mp hc)),
    List.reverse_reverse]

theorem removeRS_of_no_R : ∀ (l : List Char), (∀ c ∈ l, c ≠ 'R') →
    removeRS l = l := by
  intro l
  induction l with
  | nil => intro _; rfl
  | cons a rest ih =>
    intro h
    cases rest with
    | nil => rfl
    | cons b rest2 =>
      have ha : a ≠ 'R' := h a (List.mem_cons_self _ _)
      show (if a = 'R' ∧ b = '$' then removeRS rest2
        else a :: removeRS (b :: rest2)) = a :: b :: rest2
      rw [if_neg (fun hc => ha hc.1),
        ih (fun c hc => h c (List.mem_cons_of_mem _ hc))]

theorem takeWhile_dropWhile_append_cons (p : Char → Bool) :
    ∀ (l1 : List Char) (x : Char) (l2 : List Char),
      (∀ c ∈ l1, p c = true) → p x = false →
      (l1 ++ x :: l2).takeWhile p = l1 ∧
      (l1 ++ x :: l2).dropWhile p = x :: l2 := by
  intro l1
  induction l1 with
  | nil =>
    intro x l2 _ hx
    constructor
    · simp [List.takeWhile_cons, hx]
    · simp [List.dropWhile_cons, hx]
  | cons a t ih =>
    intro x l2 h hx
    have ha : p a = true := h a (List.mem_cons_self _ _)
    obtain ⟨iht, ihd⟩ := ih x l2 (fun c hc => h c (List.mem_cons_of_mem _ hc)) hx
    constructor
    · simp only [List.cons_append, List.takeWhile_cons, ha, if_true]
      rw [iht]
    · simp only [List.cons_append, List.dropWhile_cons, ha, if_true]
      exact ihd

theorem brMoneyChars_class (v : ℚ) : ∀ c ∈ brMoneyChars v,
    (∃ d, d < 10 ∧ c = digitChar d) ∨ c = ',' ∨ c = '.' ∨ c = '-' := by
  intro c hc
  unfold brMoneyChars at hc
  rcases List.mem_append.mp hc with hc1 | hcf
  · rcases List.mem_append.mp hc1 with hc2 | hcc
    · rcases List.mem_append.mp hc2 with hcs | hcg
      · by_cases hm : rhe (100 * v) < 0
        · rw [if_pos hm] at hcs
          rcases List.mem_singleton.mp hcs with rfl
          exact Or.inr (Or.inr (Or.inr rfl))
        · rw [if_neg hm] at hcs
          exact absurd hcs (List.not_mem_nil c)
      · unfold groupThousands at hcg
        have h1 : c ∈ group3 (natDigits ((rhe (100 * v)).natAbs / 100)).reverse :=
          List.mem_reverse.mp hcg
        rcases (group3_spec _ _ le_rfl).1 c h1 with hin | rfl
        · exact Or.inl ((natDigits_spec _).1 c (List.mem_reverse.mp hin))
        · exact Or.inr (Or.inr (Or.inl rfl))
    · rcases List.mem_singleton.mp hcc with rfl
      exact Or.inr (Or.inl rfl)
  · exact Or.inl ((twoDigits_spec (Nat.mod_lt _ (by norm_num))).1 c hcf)

theorem comma_mem_brMoneyChars (v : ℚ) : ',' ∈ brMoneyChars v := by
  unfold brMoneyChars
  exact List.mem_append_left _ (List.mem_append_right _
    (List.mem_singleton.mpr rfl))

theorem brMoneyChars_ne_nil (v : ℚ) : brMoneyChars v ≠ [] := by
  intro h
  have hmem := comma_mem_brMoneyChars v
  rw [h] at hmem
  exact List.not_mem_nil _ hmem

theorem brlNormalize_br_money (v : ℚ) :
    brlNormalize (br_money v) =
      (if rhe (100 * v) < 0 then ['-'] else []) ++
        (natDigits ((rhe (100 * v)).natAbs / 100) ++
          ('.' :: twoDigits ((rhe (100 * v)).natAbs % 100))) := by
  have hclass := brMoneyChars_class v
  have htoList : (br_money v).toList = brMoneyChars v := rfl
  unfold brlNormalize
  rw [htoList,
    pyStrip_of_no_space (fun c hc => (money_char_facts (hclass c hc)).2.1),
    removeRS_of_no_R _ (fun c hc => (money_char_facts (hclass c hc)).2.2),
    pyStrip_of_no_space (fun c hc => (money_char_facts (hclass c hc)).2.1),
    List.filter_eq_self.mpr (fun c hc => (money_char_facts (hclass c hc)).1)]
  have hA : (brMoneyChars v).any (fun c => c == ',') = true :=
    List.any_eq_true.mpr ⟨',', comma_mem_brMoneyChars v, beq_self_eq_true ','⟩
  have hds_nodot : ∀ x ∈ natDigits ((rhe (100 * v)).natAbs / 100),
      (x == '.') = false := by
    intro x hx
    obtain ⟨d, hd, rfl⟩ := (natDigits_spec _).1 x hx
    exact (digitChar_facts hd).2.2.2.2.2.1
  have hff_nodot : ∀ x ∈ twoDigits ((rhe (100 * v)).natAbs % 100),
      (x == '.') = false := by
    intro x hx
    obtain ⟨d, hd, rfl⟩ :=
      (twoDigits_spec (Nat.mod_lt _ (by norm_num))).1 x hx
    exact (digitChar_facts hd).2.2.2.2.2.1
  have hsg_filter : (if rhe (100 * v) < 0 then ['-'] else []).filter
      (fun c => !(c == '.')) = (if rhe (100 * v) < 0 then ['-'] else []) := by
    by_cases hm : rhe (100 * v) < 0
    · rw [if_pos hm]
      rfl
    · rw [if_neg hm]
      rfl
  have hgt_filter : (groupThousands (natDigits ((rhe (100 * v)).natAbs /
      100))).filter (fun c => !(c == '.')) =
      natDigits ((rhe (100 * v)).natAbs / 100) := by
    unfold groupThousands
    rw [List.filter_reverse,
      (group3_spec _ _ le_rfl).2
        (fun x hx => hds_nodot x (List.mem_reverse.mp hx)),
      List.reverse_reverse]
  have hcomma_filter : ([','] : List Char).filter (fun c => !(c == '.')) =
      [','] := rfl
  have hfilter : (brMoneyChars v).filter (fun c => !(c == '.')) =
      (if rhe (100 * v) < 0 then ['-'] else []) ++
        natDigits ((rhe (100 * v)).natAbs / 100) ++ [','] ++
        twoDigits ((rhe (100 * v)).natAbs % 100) := by
    unfold brMoneyChars
    rw [List.filter_append, List.filter_append, List.filter_append,
      hsg_filter, hgt_filter, hcomma_filter, filter_nondot_eq_self hff_nodot]
  have hmap : ((if rhe (100 * v) < 0 then ['-'] else []) ++
        natDigits ((rhe (100 * v)).natAbs / 100) ++ [','] ++
        twoDigits ((rhe (100 * v)).natAbs % 100)).map
        (fun c => if c == ',' then '.' else c) =
      (if rhe (100 * v) < 0 then ['-'] else []) ++
        (natDigits ((rhe (100 * v)).natAbs / 100) ++
          ('.' :: twoDigits ((rhe (100 * v)).natAbs % 100))) := by
    rw [List.map_append, List.map_append, List.map_append]
    have h1 : (if rhe (100 * v) < 0 then ['-'] else []).map
        (fun c => if c == ',' then '.' else c) =
        (if rhe (100 * v) < 0 then ['-'] else []) := by
      by_cases hm : rhe (100 * v) < 0
      · rw [if_pos hm]
        rfl
      · rw [if_neg hm]
        rfl
    have h2 : (natDigits ((rhe (100 * v)).natAbs / 100)).map
        (fun c => if c == ',' then '.' else c) =
        natDigits ((rhe (100 * v)).natAbs / 100) := by
      rw [List.map_congr_left, List.map_id]
      intro x hx
      obtain ⟨d, hd, rfl⟩ := (natDigits_spec _).1 x hx
      simp [(digitChar_facts hd).2.2.2.2.1]
    have h3 : ([','] : List Char).map (fun c => if c == ',' then '.' else c) =
        ['.'] := rfl
    have h4 : (twoDigits ((rhe (100 * v)).natAbs % 100)).map
        (fun c => if c == ',' then '.' else c) =
        twoDigits ((rhe (100 * v)).natAbs % 100) := by
      rw [List.map_congr_left, List.map_id]
      intro x hx
      obtain ⟨d, hd, rfl⟩ :=
        (twoDigits_spec (Nat.mod_lt _ (by norm_num))).1 x hx
      simp [(digitChar_facts hd).2.2.2.2.1]
    rw [h1, h2, h3, h4, List.append_assoc, List.append_assoc,
      List.singleton_append]
  unfold brlBranch
  by_cases hB : (brMoneyChars v).any (fun c => c == '.') = true
  · have hcond : ((brMoneyChars v).any (fun c => c == ',') &&
        (brMoneyChars v).any (fun c => c == '.')) = true := by
      rw [hA, hB]
      rfl
    rw [if_pos hcond, hfilter, hmap]
  · have hB2 : (brMoneyChars v).any (fun c => c == '.') = false := by
      revert hB
      cases (brMoneyChars v).any (fun c => c == '.') <;> simp
    have hcond : ((brMoneyChars v).any (fun c => c == ',') &&
        (brMoneyChars v).any (fun c => c == '.')) = false := by
      rw [hB2]
      exact Bool.and_false _
    rw [if_neg (by simp [hcond]), if_pos hA]
    have hnodot : ∀ x ∈ brMoneyChars v, (x == '.') = false := by
      intro x hx
      have hx2 := List.any_eq_false.mp hB2 x hx
      revert hx2
      cases (x == '.') <;> simp
    rw [← filter_nondot_eq_self hnodot, hfilter, hmap]

theorem pyFloatAux_digits (ip fp : List Char) (neg : Bool)
    (hip : ∀ c ∈ ip, ∃ d, d < 10 ∧ c = digitChar d)
    (hfp : ∀ c ∈ fp, ∃ d, d < 10 ∧ c = digitChar d)
    (hne : ip ≠ []) :
    pyFloatAux (ip ++ '.' :: fp) neg =
      some ((if neg then -1 else 1) *
        ((parseNat ip : ℚ) + (parseNat fp : ℚ) / (10 : ℚ) ^ fp.length)) := by
  have hip_dash : ∀ c ∈ ip, (c == '-') = false := by
    intro c hc
    obtain ⟨d, hd, rfl⟩ := hip c hc
    exact (digitChar_facts hd).2.2.2.2.2.2
  have hfp_dash : ∀ c ∈ fp, (c == '-') = false := by
    intro c hc
    obtain ⟨d, hd, rfl⟩ := hfp c hc
    exact (digitChar_facts hd).2.2.2.2.2.2
  have hip_dot : ∀ c ∈ ip, (c == '.') = false := by
    intro c hc
    obtain ⟨d, hd, rfl⟩ := hip c hc
    exact (digitChar_facts hd).2.2.2.2.2.1
  have hfp_dot : ∀ c ∈ fp, (c == '.') = false := by
    intro c hc
    obtain ⟨d, hd, rfl⟩ := hfp c hc
    exact (digitChar_facts hd).2.2.2.2.2.1
  have h1 : (ip ++ '.' :: fp).any (fun c => c == '-') = false := by
    rw [List.any_eq_false]
    intro x hx
    rcases List.mem_append.mp hx with hx1 | hx2
    · simp [hip_dash x hx1]
    · rcases List.mem_cons.mp hx2 with rfl | hx3
      · decide
      · simp [hfp_dash x hx3]
  have h2 : ((ip ++ '.' :: fp).filter (fun c => c == '.')) = ['.'] := by
    rw [List.filter_append]
    have hipf : ip.filter (fun c => c == '.') = [] := by
      rw [List.filter_eq_nil_iff]
      intro x hx
      simp [hip_dot x hx]
    have hfpf : fp.filter (fun c => c == '.') = [] := by
      rw [List.filter_eq_nil_iff]
      intro x hx
      simp [hfp_dot x hx]
    rw [hipf, List.nil_append, List.filter_cons, if_pos (by decide), hfpf]
  have h3 := takeWhile_dropWhile_append_cons (fun c => !(c == '.')) ip '.' fp
    (fun c hc => by
      show (!(c == '.')) = true
      rw [hip_dot c hc]
      rfl)
    (by decide)
  have hall1 : ip.all Char.isDigit = true := List.all_eq_true.mpr (by
    intro x hx
    obtain ⟨d, hd, rfl⟩ := hip x hx
    exact (digitChar_facts hd).1)
  have hall2 : fp.all Char.isDigit = true := List.all_eq_true.mpr (by
    intro x hx
    obtain ⟨d, hd, rfl⟩ := hfp x hx
    exact (digitChar_facts hd).1)
  have hemp : ip.isEmpty = false := by
    cases ip with
    | nil => exact absurd rfl hne
    | cons a t => rfl
  unfold pyFloatAux
  rw [if_neg (by simp [h1]), if_neg (by simp [h2]), h3.1, h3.2,
    List.drop_succ_cons, List.drop_zero]
  rw [if_pos (by rw [hall1, hall2, hemp]; rfl)]

theorem pyFloat_digits_pos (ip fp : List Char)
    (hip : ∀ c ∈ ip, ∃ d, d < 10 ∧ c = digitChar d)
    (hfp : ∀ c ∈ fp, ∃ d, d < 10 ∧ c = digitChar d)
    (hne : ip ≠ []) :
    pyFloat? (ip ++ '.' :: fp) =
      some ((parseNat ip : ℚ) + (parseNat fp : ℚ) / (10 : ℚ) ^ fp.length) := by
  obtain ⟨c0, ip2, rfl⟩ : ∃ c0 ip2, ip = c0 :: ip2 := by
    cases ip with
    | nil => exact absurd rfl hne
    | cons a t => exact ⟨a, t, rfl⟩
  have hc0 : (c0 == '-') = false := by
    obtain ⟨d, hd, hh⟩ := hip c0 (List.mem_cons_self _ _)
    rw [hh]
    exact (digitChar_facts hd).2.2.2.2.2.2
  have hneg : pyNeg ((c0 :: ip2) ++ '.' :: fp) = false := hc0
  unfold pyFloat?
  rw [hneg, if_neg (by simp),
    pyFloatAux_digits (c0 :: ip2) fp false hip hfp hne]
  simp

theorem pyFloat_digits_neg (ip fp : List Char)
    (hip : ∀ c ∈ ip, ∃ d, d < 10 ∧ c = digitChar d)
    (hfp : ∀ c ∈ fp, ∃ d, d < 10 ∧ c = digitChar d)
    (hne : ip ≠ []) :
    pyFloat? ('-' :: (ip ++ '.' :: fp)) =
      some (-((parseNat ip : ℚ) +
        (parseNat fp : ℚ) / (10 : ℚ) ^ fp.length)) := by
  have hneg : pyNeg ('-' :: (ip ++ '.' :: fp)) = true := beq_self_eq_true '-'
  unfold pyFloat?
  rw [hneg, if_pos rfl, List.tail_cons,
    pyFloatAux_digits ip fp true hip hfp hne]
  simp

/-- C8: for every exact two-decimal currency value, parsing the formatted
text yields the value back: `parse_brl (br_money v) = v`, where `br_money`
renders with `'.'` as thousands separator, `','` as decimal separator and
always two fraction digits. -/
theorem C8_parse_format_roundtrip (v : ℚ) (m : ℤ)
    (hm : 100 * v = (m : ℚ)) : parse_brl (br_money v) = v := by
  have hclass := brMoneyChars_class v
  have hrhe : rhe (100 * v) = m := by
    rw [hm]
    exact rhe_intCast m
  have hnorm := brlNormalize_br_money v
  rw [hrhe] at hnorm
  unfold parse_brl
  have htoList : (br_money v).toList = brMoneyChars v := rfl
  rw [htoList,
    pyStrip_of_no_space (fun c hc => (money_char_facts (hclass c hc)).2.1)]
  have hie : (brMoneyChars v).isEmpty = false := by
    rcases hl : brMoneyChars v with _ | ⟨a, t⟩
    · exact absurd hl (brMoneyChars_ne_nil v)
    · rfl
  rw [if_neg (by simp [hie]), hnorm]
  have hvm : v = (m : ℚ) / 100 := by
    rw [← hm]
    ring
  have hmod : m.natAbs % 100 < 100 := Nat.mod_lt _ (by norm_num)
  have hcast : ((m.natAbs / 100 : ℕ) : ℚ) +
      ((m.natAbs % 100 : ℕ) : ℚ) / (10 : ℚ) ^
        (twoDigits (m.natAbs % 100)).length = (m.natAbs : ℚ) / 100 := by
    rw [(twoDigits_spec hmod).2.2]
    have hdm : 100 * (m.natAbs / 100) + m.natAbs % 100 = m.natAbs :=
      Nat.div_add_mod m.natAbs 100
    have hq : ((m.natAbs : ℕ) : ℚ) =
        100 * ((m.natAbs / 100 : ℕ) : ℚ) + ((m.natAbs % 100 : ℕ) : ℚ) := by
      exact_mod_cast hdm.symm
    rw [hq, show ((10 : ℚ) ^ 2) = 100 from by norm_num]
    ring
  by_cases hmneg : m < 0
  · rw [if_pos hmneg, List.singleton_append,
      pyFloat_digits_neg _ _ (natDigits_spec _).1 (twoDigits_spec hmod).1
        (natDigits_spec _).2.1,
      Option.getD_some, (natDigits_spec (m.natAbs / 100)).2.2,
      (twoDigits_spec hmod).2.1, hcast]
    have hcn : ((m.natAbs : ℕ) : ℚ) = -(m : ℚ) := by
      rw [Int.cast_natAbs, abs_of_neg hmneg]
      push_cast
      ring
    rw [hcn, hvm]
    ring
  · rw [if_neg hmneg, List.nil_append,
      pyFloat_digits_pos _ _ (natDigits_spec _).1 (twoDigits_spec hmod).1
        (natDigits_spec _).2.1,
      Option.getD_some, (natDigits_spec (m.natAbs / 100)).2.2,
      (twoDigits_spec hmod).2.1, hcast]
    have hcn : ((m.natAbs : ℕ) : ℚ) = (m : ℚ) := by
      rw [Int.cast_natAbs, abs_of_nonneg (not_lt.mp hmneg)]
    rw [hcn, hvm]

/-- C8 witness: the round trip at `1630.00`, `0.00` and `1000000.55`. -/
theorem C8_parse_format_roundtrip_witness :
    parse_brl (br_money 1630) = 1630 ∧ parse_brl (br_money 0) = 0 ∧
    parse_brl (br_money (1000000 + 55 / 100)) = 1000000 + 55 / 100 :=
  ⟨C8_parse_format_roundtrip 1630 163000 (by norm_num),
   C8_parse_format_roundtrip 0 0 (by norm_num),
   C8_parse_format_roundtrip (1000000 + 55 / 100) 100000055 (by norm_num)⟩

/-- C9: whenever the normalised text is irrecoverably malformed — `float()`
on it fails — `parse_brl` returns zero instead of raising. -/
theorem C9_malformed_returns_zero (s : String)
    (h : pyFloat? (brlNormalize s) = none) : parse_brl s = 0 := by
  unfold parse_brl
  by_cases he : (pyStrip s.toList).isEmpty
  · rw [if_pos he]
  · rw [if_neg he, h]
    rfl

/-- C9 witness: the malformed input `"abc"` filters down to an empty number
and parses to zero. -/
theorem C9_malformed_returns_zero_witness :
    pyFloat? (brlNormalize "abc") = none ∧ parse_brl "abc" = 0 :=
  ⟨by decide, C9_malformed_returns_zero "abc" (by decide)⟩

end Appcard
